import Mathlib

/-!
Shallow embedding of the FastAPI Todo backend
(`backend/routes/todo.py`, `backend/schemas/todomodel.py`).

The storage layer is MongoDB accessed through a single pymongo
collection handle (`collection`, imported from `database.database`).
Documents are Python dicts mapping string keys to BSON values; here a
document is an association list `List (String × BVal)` whose operations
mirror Python dict semantics (update-in-place of an existing key,
append of a new key, deletion of a key).  The collection is the list of
its documents in natural (insertion) order.

`bson.ObjectId` accepts a 24-character hexadecimal string and
normalises it to lowercase; `str` of an ObjectId is that canonical
lowercase string.  We model an ObjectId by its canonical string, and
`ObjectId(s)` by `parseObjectId s`, which returns `none` exactly when
the constructor would raise `bson.errors.InvalidId`.
-/

/-- A BSON value as far as this service produces or reads one:
Python `None`, a string, or an ObjectId (held as its canonical
lowercase-hex string). -/
inductive BVal where
  | null : BVal
  | str : String → BVal
  | oid : String → BVal
deriving DecidableEq

/-- A document / Python dict: keys in insertion order, values `BVal`. -/
abbrev Doc := List (String × BVal)

/-- A MongoDB collection: its documents in natural order. -/
abbrev Collection := List Doc

/-- `d[k]` as a lookup: the value at the first occurrence of key `k`. -/
def dictGet : Doc → String → Option BVal
  | [], _ => none
  | (k', v') :: rest, k => if k' = k then some v' else dictGet rest k

/-- `k in d`: Python key-membership test. -/
def hasKey (d : Doc) (k : String) : Bool :=
  (dictGet d k).isSome

/-- `d[k] = v`: replace the value at an existing key in place, else
append the new key at the end (Python dict assignment). -/
def dictSet : Doc → String → BVal → Doc
  | [], k, v => [(k, v)]
  | (k', v') :: rest, k, v =>
    if k' = k then (k, v) :: rest else (k', v') :: dictSet rest k v

/-- `del d[k]`: remove the (first) occurrence of key `k`. -/
def dictDel : Doc → String → Doc
  | [], _ => []
  | (k', v') :: rest, k => if k' = k then rest else (k', v') :: dictDel rest k

/-- The keys of a document, in order. -/
def docKeys (d : Doc) : List String :=
  d.map Prod.fst

/-- How many entries of `d` carry key `k` (1 for a genuine dict). -/
def countKey : Doc → String → Nat
  | [], _ => 0
  | (k', _) :: rest, k => (if k' = k then 1 else 0) + countKey rest k

/-- Python `str` on the BSON values this service can meet; on an
ObjectId it yields the canonical lowercase-hex string. -/
def pyStr : BVal → String
  | .null => "None"
  | .str s => s
  | .oid o => o

/-- Hexadecimal digit in either case, as accepted by `bson.ObjectId`. -/
def isHexChar (c : Char) : Bool :=
  ((('0' ≤ c) && (c ≤ '9')) || (('a' ≤ c) && (c ≤ 'f'))) || (('A' ≤ c) && (c ≤ 'F'))

/-- Lowercase hexadecimal digit: the character set of canonical
ObjectId strings. -/
def isLowerHexChar (c : Char) : Bool :=
  (('0' ≤ c) && (c ≤ '9')) || (('a' ≤ c) && (c ≤ 'f'))

/-- Lowercasing restricted to hexadecimal digits (all `bson.ObjectId`
needs). -/
def lowerHexChar (c : Char) : Char :=
  if c = 'A' then 'a'
  else if c = 'B' then 'b'
  else if c = 'C' then 'c'
  else if c = 'D' then 'd'
  else if c = 'E' then 'e'
  else if c = 'F' then 'f'
  else c

/-- A string `bson.ObjectId` accepts: exactly 24 hexadecimal
characters. -/
def validOidString (s : String) : Bool :=
  decide (s.length = 24) && s.data.all isHexChar

/-- A canonical ObjectId string: 24 lowercase hexadecimal characters,
the form `str(ObjectId(...))` produces. -/
def canonicalOid (s : String) : Bool :=
  decide (s.length = 24) && s.data.all isLowerHexChar

/-- `ObjectId(s)`: `some` of the canonical lowercase form when `s` is a
valid ObjectId string, `none` when the constructor raises
`bson.errors.InvalidId`. -/
def parseObjectId (s : String) : Option String :=
  if validOidString s then some (String.mk (s.data.map lowerHexChar)) else none

lemma isHexChar_of_isLowerHexChar {c : Char} (h : isLowerHexChar c = true) :
    isHexChar c = true := by
  simp only [isLowerHexChar, Bool.or_eq_true, Bool.and_eq_true, decide_eq_true_eq] at h
  simp only [isHexChar, Bool.or_eq_true, Bool.and_eq_true, decide_eq_true_eq]
  tauto

lemma lowerHexChar_of_isLowerHexChar {c : Char} (h : isLowerHexChar c = true) :
    lowerHexChar c = c := by
  unfold lowerHexChar
  split_ifs with h1 h2 h3 h4 h5 h6
  · subst h1; exact absurd h (by decide)
  · subst h2; exact absurd h (by decide)
  · subst h3; exact absurd h (by decide)
  · subst h4; exact absurd h (by decide)
  · subst h5; exact absurd h (by decide)
  · subst h6; exact absurd h (by decide)
  · rfl

/-- A canonical ObjectId string parses back to itself: the round trip
`ObjectId(str(o)) == o`. -/
lemma parseObjectId_canonical {s : String} (h : canonicalOid s = true) :
    parseObjectId s = some s := by
  simp only [canonicalOid, Bool.and_eq_true, decide_eq_true_eq, List.all_eq_true] at h
  obtain ⟨hlen, hchars⟩ := h
  have hvalid : validOidString s = true := by
    simp only [validOidString, Bool.and_eq_true, decide_eq_true_eq, List.all_eq_true]
    exact ⟨hlen, fun c hc => isHexChar_of_isLowerHexChar (hchars c hc)⟩
  simp only [parseObjectId, hvalid, if_true]
  have hmap : ∀ l : List Char, (∀ c ∈ l, isLowerHexChar c = true) →
      l.map lowerHexChar = l := by
    intro l hl
    induction l with
    | nil => rfl
    | cons a t ih =>
      simp only [List.map_cons, List.cons.injEq]
      exact ⟨lowerHexChar_of_isLowerHexChar (hl a (by simp)),
        ih fun c hc => hl c (by simp [hc])⟩
  exact congrArg (fun l => some (String.mk l)) (hmap s.data hchars)

/-- A canonical ObjectId string is non-empty (it has 24 characters). -/
lemma canonicalOid_ne_empty {s : String} (h : canonicalOid s = true) : s ≠ "" := by
  simp only [canonicalOid, Bool.and_eq_true, decide_eq_true_eq] at h
  intro he
  rw [he] at h
  simp at h

/-!
Schema layer (`backend/schemas/todomodel.py`): pydantic models `Todo`
(optional `id`, required `title`, `description`, `deadline`) and
`TodoUpdate` (the three content fields, all required).  `dict(model)`
yields the fields in declaration order; an unset optional field
appears with value `None`.
-/

/-- The `Todo` pydantic model of `schemas/todomodel.py`. -/
structure Todo where
  id : Option String
  title : String
  description : String
  deadline : String
deriving DecidableEq

/-- `dict(todo)` for a `Todo`: fields in declaration order, an absent
optional `id` showing up as Python `None`. -/
def Todo.toDict (t : Todo) : Doc :=
  [("id", match t.id with | some s => BVal.str s | none => BVal.null),
   ("title", BVal.str t.title),
   ("description", BVal.str t.description),
   ("deadline", BVal.str t.deadline)]

/-- The `TodoUpdate` pydantic model of `schemas/todomodel.py`. -/
structure TodoUpdate where
  title : String
  description : String
  deadline : String
deriving DecidableEq

/-- `dict(todo)` for a `TodoUpdate`. -/
def TodoUpdate.toDict (t : TodoUpdate) : Doc :=
  [("title", BVal.str t.title),
   ("description", BVal.str t.description),
   ("deadline", BVal.str t.deadline)]

/-!
Storage accessor: the pymongo collection operations the handlers call.
MongoDB guarantees every stored document carries an `_id` field holding
its ObjectId; `find` returns documents in natural order, `find_one`,
`update_one` and `delete_one` act on the first matching document.
`insert_one` is modelled with the client-generated fresh ObjectId as an
explicit argument (pymongo draws it from timestamp + randomness); the
returned document places `_id` first, as MongoDB serialises it.
-/

/-- `collection.find()`: every document, natural order. -/
def find (c : Collection) : List Doc :=
  c

/-- The filter `{"_id": ObjectId(o)}` applied to one document. -/
def matchesOid (o : String) (d : Doc) : Bool :=
  dictGet d "_id" = some (BVal.oid o)

/-- `collection.find_one({"_id": ObjectId(o)})`: first document whose
`_id` equals the ObjectId, or `None`. -/
def find_one : Collection → String → Option Doc
  | [], _ => none
  | d :: rest, o => if matchesOid o d then some d else find_one rest o

/-- `collection.insert_one(doc)` with client-generated ObjectId
`fresh`: the stored document (its `_id` first) is appended to the
collection; `result.inserted_id` is `fresh`. -/
def insert_one (c : Collection) (d : Doc) (fresh : String) : Collection × String :=
  (c ++ [("_id", BVal.oid fresh) :: d], fresh)

/-- MongoDB `$set`: assign each field of `s` in the document `d`. -/
def applySet (d : Doc) (s : Doc) : Doc :=
  s.foldl (fun acc kv => dictSet acc kv.1 kv.2) d

/-- `collection.update_one({"_id": ObjectId(o)}, {"$set": s})`: apply
the `$set` to the first matching document; a no-op when none
matches. -/
def update_one : Collection → String → Doc → Collection
  | [], _, _ => []
  | d :: rest, o, s =>
    if matchesOid o d then applySet d s :: rest
    else d :: update_one rest o s

/-- `collection.delete_one({"_id": ObjectId(o)})`: remove the first
matching document; the second component is `result.deleted_count`. -/
def delete_one : Collection → String → Collection × Nat
  | [], _ => ([], 0)
  | d :: rest, o =>
    if matchesOid o d then (rest, 1)
    else
      let r := delete_one rest o
      (d :: r.1, r.2)

/-!
Resource handler layer (`backend/routes/todo.py`).  A handler outcome
is a JSON body, a raised `HTTPException`, or an unhandled Python
exception escaping the handler (no 4xx/5xx produced by the handler
itself).  Handlers that write return the mongo collection state after
the request next to the outcome; `get_todos` and `get_todo` only read.
-/

/-- Outcome of one request handler. -/
inductive HResult where
  | ok : Doc → HResult
  | httpError : Nat → String → HResult
  | fault : String → HResult
deriving DecidableEq

/-- The two statements `todo["id"] = str(todo["_id"])` and
`del todo["_id"]` that every handler performs on a document fetched
from storage before returning it.  Documents coming from MongoDB always
carry `_id`; the fallback branch for a missing `_id` (a `KeyError` in
Python) is never reached on such documents. -/
def reshape (d : Doc) : Doc :=
  match dictGet d "_id" with
  | some v => dictDel (dictSet d "id" (BVal.str (pyStr v))) "_id"
  | none => d

/-- `GET /todos/` (`get_todos`): reshape every document of the
collection, in order.  Read-only: no collection state is produced. -/
def get_todos (c : Collection) : List Doc :=
  (find c).map reshape

/-- `GET /todos/{id}` (`get_todo`).  `ObjectId(id)` raises on a
malformed id (the handler does not catch it); an empty or missing
document is falsy in Python, so `if todo:` fails and a 404 is
raised.  Read-only. -/
def get_todo (c : Collection) (id : String) : HResult :=
  match parseObjectId id with
  | none => .fault "bson.errors.InvalidId"
  | some o =>
    match find_one c o with
    | some todo =>
      if todo = [] then .httpError 404 "Todo not found"
      else .ok (reshape todo)
    | none => .httpError 404 "Todo not found"

/-- `POST /todos/` (`create_todo`): drop the `id` key from
`dict(todo)` when present, insert, re-fetch by the inserted id and
reshape.  The re-fetch is not `None`-checked: were it to miss, the
subscript on `None` would raise a `TypeError`. -/
def create_todo (c : Collection) (todo : Todo) (fresh : String) :
    HResult × Collection :=
  let todo_dict := Todo.toDict todo
  let todo_dict := if hasKey todo_dict "id" then dictDel todo_dict "id" else todo_dict
  let inserted := insert_one c todo_dict fresh
  match find_one inserted.1 inserted.2 with
  | some new_todo => (.ok (reshape new_todo), inserted.1)
  | none => (.fault "TypeError", inserted.1)

/-- `PUT /todos/{id}` (`update_todo`): parse the id, issue the `$set`
unconditionally, then re-fetch; only the re-fetch detects absence. -/
def update_todo (c : Collection) (id : String) (todo : TodoUpdate) :
    HResult × Collection :=
  match parseObjectId id with
  | none => (.fault "bson.errors.InvalidId", c)
  | some o =>
    let todo_dict := TodoUpdate.toDict todo
    let c' := update_one c o todo_dict
    match find_one c' o with
    | some updated_todo =>
      if updated_todo = [] then (.httpError 404 "Todo not found", c')
      else (.ok (reshape updated_todo), c')
    | none => (.httpError 404 "Todo not found", c')

/-- `DELETE /todos/{id}` (`delete_todo`): parse the id, delete, answer
by `deleted_count`. -/
def delete_todo (c : Collection) (id : String) : HResult × Collection :=
  match parseObjectId id with
  | none => (.fault "bson.errors.InvalidId", c)
  | some o =>
    let result := delete_one c o
    if result.2 > 0 then
      (.ok [("message", BVal.str "Todo deleted successfully")], result.1)
    else (.httpError 404 "Todo not found", result.1)

/-- A document as MongoDB hands it back: keys are distinct and `_id`
holds an ObjectId value. -/
def isOidVal : Option BVal → Bool
  | some (BVal.oid _) => true
  | _ => false

/-- Well-formedness of a stored document: distinct keys, an ObjectId
under `_id`, and no ObjectId-typed value under any other key (the
content fields this service writes are strings). -/
def DocWF (d : Doc) : Prop :=
  (docKeys d).Nodup ∧ isOidVal (dictGet d "_id") = true ∧
    ∀ kv ∈ d, kv.1 ≠ "_id" → isOidVal (some kv.2) = false

/-- Well-formedness of a collection state: every document is a genuine
MongoDB document. -/
def WF (c : Collection) : Prop :=
  ∀ d ∈ c, DocWF d

instance : DecidablePred DocWF := fun _ =>
  inferInstanceAs (Decidable (_ ∧ _ ∧ _))

instance : DecidablePred WF := fun cs =>
  inferInstanceAs (Decidable (∀ d ∈ cs, DocWF d))

/-! Dictionary lemmas. -/

lemma dictGet_dictSet_self (d : Doc) (k : String) (v : BVal) :
    dictGet (dictSet d k v) k = some v := by
  induction d with
  | nil => simp [dictSet, dictGet]
  | cons p rest ih =>
    obtain ⟨k', v'⟩ := p
    by_cases h : k' = k
    · subst h
      simp [dictSet, dictGet]
    · simp [dictSet, dictGet, h, ih]

lemma dictGet_dictSet_ne (d : Doc) {k k' : String} (v : BVal) (h : k' ≠ k) :
    dictGet (dictSet d k v) k' = dictGet d k' := by
  have h1 : ¬ (k = k') := fun he => h he.symm
  induction d with
  | nil => simp [dictSet, dictGet, h1]
  | cons p rest ih =>
    obtain ⟨k'', v''⟩ := p
    by_cases hk : k'' = k
    · subst hk
      simp [dictSet, dictGet, h1]
    · by_cases hk' : k'' = k'
      · simp [dictSet, dictGet, hk, hk', h]
      · simp [dictSet, dictGet, hk, hk', ih]

lemma dictGet_dictDel_ne (d : Doc) {k k' : String} (h : k' ≠ k) :
    dictGet (dictDel d k) k' = dictGet d k' := by
  induction d with
  | nil => simp [dictDel]
  | cons p rest ih =>
    obtain ⟨k'', v''⟩ := p
    by_cases hk : k'' = k
    · subst hk
      have hne : ¬ (k'' = k') := fun he => h he.symm
      simp [dictDel, dictGet, hne]
    · by_cases hk' : k'' = k'
      · simp [dictDel, dictGet, hk, hk', h]
      · simp [dictDel, dictGet, hk, hk', ih]

lemma hasKey_iff_mem_docKeys (d : Doc) (k : String) :
    hasKey d k = true ↔ k ∈ docKeys d := by
  induction d with
  | nil => simp [hasKey, dictGet, docKeys]
  | cons p rest ih =>
    obtain ⟨k', v'⟩ := p
    by_cases h : k' = k
    · subst h
      simp [hasKey, dictGet, docKeys]
    · have hne : ¬ (k = k') := fun he => h he.symm
      simp only [hasKey, dictGet, if_neg h, docKeys, List.map_cons, List.mem_cons]
      rw [← docKeys]
      constructor
      · intro hk
        exact Or.inr ((ih.mp) hk)
      · rintro (hk | hk)
        · exact absurd hk hne
        · exact ih.mpr hk

lemma countKey_eq_zero_of_not_mem {d : Doc} {k : String} (h : k ∉ docKeys d) :
    countKey d k = 0 := by
  induction d with
  | nil => rfl
  | cons p rest ih =>
    obtain ⟨k', v'⟩ := p
    simp only [docKeys, List.map_cons, List.mem_cons] at h
    push_neg at h
    have hne : ¬ (k' = k) := fun he => h.1 he.symm
    simp only [countKey, if_neg hne, Nat.zero_add]
    exact ih (by simpa [docKeys] using h.2)

lemma countKey_dictSet_self {d : Doc} (hnd : (docKeys d).Nodup) (k : String) (v : BVal) :
    countKey (dictSet d k v) k = 1 := by
  induction d with
  | nil => simp [dictSet, countKey]
  | cons p rest ih =>
    obtain ⟨k', v'⟩ := p
    simp only [docKeys, List.map_cons, List.nodup_cons] at hnd
    by_cases h : k' = k
    · subst h
      have h0 : countKey rest k' = 0 :=
        countKey_eq_zero_of_not_mem (by simpa [docKeys] using hnd.1)
      simp [dictSet, countKey, h0]
    · simp only [dictSet, if_neg h, countKey, if_neg h, Nat.zero_add]
      exact ih (by simpa [docKeys] using hnd.2)

lemma countKey_dictDel_ne (d : Doc) {k k' : String} (h : k' ≠ k) :
    countKey (dictDel d k) k' = countKey d k' := by
  induction d with
  | nil => simp [dictDel]
  | cons p rest ih =>
    obtain ⟨k'', v''⟩ := p
    by_cases hk : k'' = k
    · subst hk
      have hne : ¬ (k'' = k') := fun he => h he.symm
      simp [dictDel, countKey, hne]
    · simp only [dictDel, if_neg hk, countKey, ih]

lemma mem_docKeys_dictSet {d : Doc} {k k' : String} {v : BVal}
    (h : k' ∈ docKeys (dictSet d k v)) : k' = k ∨ k' ∈ docKeys d := by
  induction d with
  | nil => simpa [dictSet, docKeys] using h
  | cons p rest ih =>
    obtain ⟨k'', v''⟩ := p
    by_cases hk : k'' = k
    · subst hk
      have hs : dictSet ((k'', v'') :: rest) k'' v = (k'', v) :: rest := by
        simp [dictSet]
      rw [hs] at h
      simp only [docKeys, List.map_cons, List.mem_cons] at h ⊢
      rcases h with h | h
      · exact Or.inr (Or.inl h)
      · exact Or.inr (Or.inr h)
    · simp only [dictSet, if_neg hk, docKeys, List.map_cons, List.mem_cons] at h
      rcases h with h | h
      · exact Or.inr (by simp [docKeys, h])
      · rcases ih (by simpa [docKeys] using h) with h' | h'
        · exact Or.inl h'
        · refine Or.inr ?_
          simp only [docKeys, List.map_cons, List.mem_cons]
          exact Or.inr (by simpa [docKeys] using h')

lemma nodup_docKeys_dictSet {d : Doc} (hnd : (docKeys d).Nodup) (k : String) (v : BVal) :
    (docKeys (dictSet d k v)).Nodup := by
  induction d with
  | nil => simp [dictSet, docKeys]
  | cons p rest ih =>
    obtain ⟨k', v'⟩ := p
    simp only [docKeys, List.map_cons, List.nodup_cons] at hnd
    by_cases h : k' = k
    · subst h
      have hs : dictSet ((k', v') :: rest) k' v = (k', v) :: rest := by
        simp [dictSet]
      rw [hs]
      simp only [docKeys, List.map_cons, List.nodup_cons]
      exact ⟨hnd.1, hnd.2⟩
    · simp only [dictSet, if_neg h, docKeys, List.map_cons, List.nodup_cons]
      constructor
      · intro hmem
        rcases mem_docKeys_dictSet (by simpa [docKeys] using hmem) with he | he
        · exact h he
        · exact hnd.1 he
      · exact ih hnd.2

lemma hasKey_dictDel_self {d : Doc} (hnd : (docKeys d).Nodup) (k : String) :
    hasKey (dictDel d k) k = false := by
  induction d with
  | nil => simp [dictDel, hasKey, dictGet]
  | cons p rest ih =>
    obtain ⟨k', v'⟩ := p
    simp only [docKeys, List.map_cons, List.nodup_cons] at hnd
    by_cases h : k' = k
    · subst h
      rw [Bool.eq_false_iff]
      intro hcontra
      simp only [dictDel, if_pos rfl] at hcontra
      exact hnd.1 ((hasKey_iff_mem_docKeys rest k').mp hcontra)
    · simp only [dictDel, if_neg h, hasKey, dictGet, if_neg h]
      exact ih hnd.2

lemma dictSet_ne_nil (d : Doc) (k : String) (v : BVal) : dictSet d k v ≠ [] := by
  cases d with
  | nil => simp [dictSet]
  | cons p rest =>
    obtain ⟨k', v'⟩ := p
    by_cases h : k' = k <;> simp [dictSet, h]

/-! Storage-operation lemmas. -/

lemma find_one_eq_none_iff (c : Collection) (o : String) :
    find_one c o = none ↔ ∀ d ∈ c, matchesOid o d = false := by
  induction c with
  | nil => simp [find_one]
  | cons d rest ih =>
    by_cases h : matchesOid o d
    · simp [find_one, h]
    · simp only [find_one, if_neg h, List.mem_cons]
      constructor
      · intro hn e he
        rcases he with he | he
        · subst he
          exact Bool.eq_false_iff.mpr h
        · exact (ih.mp hn) e he
      · intro hall
        exact ih.mpr fun e he => hall e (Or.inr he)

lemma matchesOid_of_find_one {c : Collection} {o : String} {d : Doc}
    (h : find_one c o = some d) : matchesOid o d = true := by
  induction c with
  | nil => simp [find_one] at h
  | cons e rest ih =>
    by_cases he : matchesOid o e
    · simp only [find_one, if_pos he, Option.some.injEq] at h
      subst h
      exact he
    · simp only [find_one, if_neg he] at h
      exact ih h

lemma mem_of_find_one {c : Collection} {o : String} {d : Doc}
    (h : find_one c o = some d) : d ∈ c := by
  induction c with
  | nil => simp [find_one] at h
  | cons e rest ih =>
    by_cases he : matchesOid o e
    · simp only [find_one, if_pos he, Option.some.injEq] at h
      exact List.mem_cons.mpr (Or.inl h.symm)
    · simp only [find_one, if_neg he] at h
      exact List.mem_cons.mpr (Or.inr (ih h))

lemma find_one_append_of_none {c : Collection} {o : String}
    (h : ∀ d ∈ c, matchesOid o d = false) (c₂ : Collection) :
    find_one (c ++ c₂) o = find_one c₂ o := by
  induction c with
  | nil => simp
  | cons d rest ih =>
    have hd : matchesOid o d = false := h d (by simp)
    simp only [List.cons_append, find_one, hd]
    simp only [Bool.false_eq_true, if_false]
    exact ih fun e he => h e (by simp [he])

lemma update_one_of_none {c : Collection} {o : String}
    (h : find_one c o = none) (s : Doc) : update_one c o s = c := by
  induction c with
  | nil => rfl
  | cons d rest ih =>
    by_cases hd : matchesOid o d
    · simp [find_one, hd] at h
    · simp only [find_one, if_neg hd] at h
      simp only [update_one, if_neg hd]
      rw [ih h]

lemma find_one_update_one (c : Collection) (o : String) (s : Doc)
    (hpres : ∀ d : Doc, matchesOid o (applySet d s) = matchesOid o d) :
    find_one (update_one c o s) o = (find_one c o).map (fun d => applySet d s) := by
  induction c with
  | nil => simp [update_one, find_one]
  | cons d rest ih =>
    by_cases hd : matchesOid o d
    · simp only [update_one, if_pos hd, find_one]
      rw [hpres d]
      simp [find_one, hd]
    · simp only [update_one, if_neg hd, find_one, if_neg hd]
      exact ih

lemma mem_update_one_of_not_match {c : Collection} {o : String} {s : Doc} {d : Doc}
    (hmem : d ∈ c) (hne : matchesOid o d = false) : d ∈ update_one c o s := by
  induction c with
  | nil => simp at hmem
  | cons e rest ih =>
    rcases List.mem_cons.mp hmem with he | he
    · subst he
      by_cases h : matchesOid o d
      · rw [h] at hne
        simp at hne
      · simp only [update_one, if_neg h]
        exact List.mem_cons.mpr (Or.inl rfl)
    · by_cases h : matchesOid o e
      · simp only [update_one, if_pos h]
        exact List.mem_cons.mpr (Or.inr he)
      · simp only [update_one, if_neg h]
        exact List.mem_cons.mpr (Or.inr (ih he))

lemma mem_update_one {c : Collection} {o : String} {s : Doc} {d : Doc}
    (h : d ∈ update_one c o s) : d ∈ c ∨ ∃ d0 ∈ c, d = applySet d0 s := by
  induction c with
  | nil => simp [update_one] at h
  | cons e rest ih =>
    by_cases he : matchesOid o e
    · simp only [update_one, if_pos he] at h
      rcases List.mem_cons.mp h with h' | h'
      · exact Or.inr ⟨e, by simp, h'⟩
      · exact Or.inl (List.mem_cons.mpr (Or.inr h'))
    · simp only [update_one, if_neg he] at h
      rcases List.mem_cons.mp h with h' | h'
      · exact Or.inl (List.mem_cons.mpr (Or.inl h'))
      · rcases ih h' with h'' | ⟨d0, hd0, he'⟩
        · exact Or.inl (List.mem_cons.mpr (Or.inr h''))
        · exact Or.inr ⟨d0, by simp [hd0], he'⟩

lemma delete_one_of_none {c : Collection} {o : String}
    (h : find_one c o = none) : delete_one c o = (c, 0) := by
  induction c with
  | nil => rfl
  | cons d rest ih =>
    by_cases hd : matchesOid o d
    · simp [find_one, hd] at h
    · simp only [find_one, if_neg hd] at h
      simp only [delete_one, if_neg hd, ih h]

lemma delete_one_of_some {c : Collection} {o : String} {d : Doc}
    (h : find_one c o = some d) :
    ∃ pre post, c = pre ++ d :: post ∧ (∀ e ∈ pre, matchesOid o e = false) ∧
      delete_one c o = (pre ++ post, 1) := by
  induction c with
  | nil => simp [find_one] at h
  | cons e rest ih =>
    by_cases he : matchesOid o e
    · simp only [find_one, if_pos he, Option.some.injEq] at h
      subst h
      exact ⟨[], rest, by simp, by simp, by simp [delete_one, he]⟩
    · simp only [find_one, if_neg he] at h
      obtain ⟨pre, post, hc, hpre, hdel⟩ := ih h
      refine ⟨e :: pre, post, by simp [hc], ?_, ?_⟩
      · intro e' he'
        rcases List.mem_cons.mp he' with h' | h'
        · subst h'
          exact Bool.eq_false_iff.mpr he
        · exact hpre e' h'
      · simp only [delete_one, if_neg he, hdel, List.cons_append]

lemma mem_delete_one_of_not_match {c : Collection} {o : String} {d : Doc}
    (hmem : d ∈ c) (hne : matchesOid o d = false) : d ∈ (delete_one c o).1 := by
  induction c with
  | nil => simp at hmem
  | cons e rest ih =>
    rcases List.mem_cons.mp hmem with he | he
    · subst he
      by_cases h : matchesOid o d
      · rw [h] at hne
        simp at hne
      · simp only [delete_one, if_neg h]
        exact List.mem_cons.mpr (Or.inl rfl)
    · by_cases h : matchesOid o e
      · simp only [delete_one, if_pos h]
        exact he
      · simp only [delete_one, if_neg h]
        exact List.mem_cons.mpr (Or.inr (ih he))

/-! `$set` with a `TodoUpdate` payload, and reshaping lemmas. -/

lemma applySet_toDict (d : Doc) (t : TodoUpdate) :
    applySet d (TodoUpdate.toDict t) =
      dictSet (dictSet (dictSet d "title" (BVal.str t.title))
        "description" (BVal.str t.description)) "deadline" (BVal.str t.deadline) :=
  rfl

lemma dictGet_applySet_toDict_other (d : Doc) (t : TodoUpdate) {k : String}
    (h1 : k ≠ "title") (h2 : k ≠ "description") (h3 : k ≠ "deadline") :
    dictGet (applySet d (TodoUpdate.toDict t)) k = dictGet d k := by
  rw [applySet_toDict, dictGet_dictSet_ne _ _ h3, dictGet_dictSet_ne _ _ h2,
    dictGet_dictSet_ne _ _ h1]

lemma matchesOid_applySet_toDict (o : String) (d : Doc) (t : TodoUpdate) :
    matchesOid o (applySet d (TodoUpdate.toDict t)) = matchesOid o d := by
  unfold matchesOid
  rw [dictGet_applySet_toDict_other d t (by decide) (by decide) (by decide)]

lemma dictGet_applySet_toDict_title (d : Doc) (t : TodoUpdate) :
    dictGet (applySet d (TodoUpdate.toDict t)) "title" = some (BVal.str t.title) := by
  rw [applySet_toDict, dictGet_dictSet_ne _ _ (by decide),
    dictGet_dictSet_ne _ _ (by decide), dictGet_dictSet_self]

lemma dictGet_applySet_toDict_description (d : Doc) (t : TodoUpdate) :
    dictGet (applySet d (TodoUpdate.toDict t)) "description" =
      some (BVal.str t.description) := by
  rw [applySet_toDict, dictGet_dictSet_ne _ _ (by decide), dictGet_dictSet_self]

lemma dictGet_applySet_toDict_deadline (d : Doc) (t : TodoUpdate) :
    dictGet (applySet d (TodoUpdate.toDict t)) "deadline" =
      some (BVal.str t.deadline) := by
  rw [applySet_toDict, dictGet_dictSet_self]

lemma applySet_toDict_ne_nil (d : Doc) (t : TodoUpdate) :
    applySet d (TodoUpdate.toDict t) ≠ [] := by
  rw [applySet_toDict]
  exact dictSet_ne_nil _ _ _

lemma nodup_docKeys_applySet_toDict {d : Doc} (hnd : (docKeys d).Nodup)
    (t : TodoUpdate) : (docKeys (applySet d (TodoUpdate.toDict t))).Nodup := by
  rw [applySet_toDict]
  exact nodup_docKeys_dictSet (nodup_docKeys_dictSet (nodup_docKeys_dictSet hnd _ _) _ _) _ _

lemma reshape_of_uid {d : Doc} {v : BVal} (h : dictGet d "_id" = some v) :
    reshape d = dictDel (dictSet d "id" (BVal.str (pyStr v))) "_id" := by
  simp [reshape, h]

lemma dictGet_reshape_id {d : Doc} {v : BVal} (h : dictGet d "_id" = some v) :
    dictGet (reshape d) "id" = some (BVal.str (pyStr v)) := by
  rw [reshape_of_uid h, dictGet_dictDel_ne _ (by decide), dictGet_dictSet_self]

lemma countKey_reshape_id {d : Doc} (hnd : (docKeys d).Nodup) {v : BVal}
    (h : dictGet d "_id" = some v) : countKey (reshape d) "id" = 1 := by
  rw [reshape_of_uid h, countKey_dictDel_ne _ (by decide), countKey_dictSet_self hnd]

lemma hasKey_reshape_uid {d : Doc} (hnd : (docKeys d).Nodup) {v : BVal}
    (h : dictGet d "_id" = some v) : hasKey (reshape d) "_id" = false := by
  rw [reshape_of_uid h]
  exact hasKey_dictDel_self (nodup_docKeys_dictSet hnd _ _) _

lemma dictGet_reshape_other {d : Doc} {v : BVal} (h : dictGet d "_id" = some v)
    {k : String} (h1 : k ≠ "id") (h2 : k ≠ "_id") :
    dictGet (reshape d) k = dictGet d k := by
  rw [reshape_of_uid h, dictGet_dictDel_ne _ h2, dictGet_dictSet_ne _ _ h1]

/-! Characterisation of `create_todo`. -/

lemma hasKey_toDict_id (t : Todo) : hasKey (Todo.toDict t) "id" = true :=
  rfl

lemma dictDel_toDict_id (t : Todo) :
    dictDel (Todo.toDict t) "id" =
      [("title", BVal.str t.title), ("description", BVal.str t.description),
       ("deadline", BVal.str t.deadline)] :=
  rfl

lemma matchesOid_inserted (t : Todo) (fresh : String) :
    matchesOid fresh
      [("_id", BVal.oid fresh), ("title", BVal.str t.title),
       ("description", BVal.str t.description), ("deadline", BVal.str t.deadline)] = true := by
  simp [matchesOid, dictGet]

lemma find_one_inserted (c : Collection) (t : Todo) (fresh : String)
    (hfresh : ∀ d ∈ c, matchesOid fresh d = false) :
    find_one
      (c ++ [[("_id", BVal.oid fresh), ("title", BVal.str t.title),
        ("description", BVal.str t.description), ("deadline", BVal.str t.deadline)]])
      fresh =
      some [("_id", BVal.oid fresh), ("title", BVal.str t.title),
        ("description", BVal.str t.description), ("deadline", BVal.str t.deadline)] := by
  rw [find_one_append_of_none hfresh]
  simp only [find_one, matchesOid_inserted, if_true]

/-- The whole effect of `create_todo` when the generated ObjectId is
fresh for the collection: the inserted document is the payload minus
its `id` key, `_id` first, appended to the collection; the response is
that document reshaped. -/
lemma create_todo_eq (c : Collection) (t : Todo) (fresh : String)
    (hfresh : ∀ d ∈ c, matchesOid fresh d = false) :
    create_todo c t fresh =
      (HResult.ok [("title", BVal.str t.title), ("description", BVal.str t.description),
        ("deadline", BVal.str t.deadline), ("id", BVal.str fresh)],
       c ++ [[("_id", BVal.oid fresh), ("title", BVal.str t.title),
         ("description", BVal.str t.description), ("deadline", BVal.str t.deadline)]]) := by
  simp only [create_todo, insert_one, hasKey_toDict_id, if_true, dictDel_toDict_id]
  rw [find_one_inserted c t fresh hfresh]
  rfl

/-! Membership lemmas and the shape of reshaped records. -/

lemma mem_dictSet {d : Doc} {k : String} {v : BVal} {kv : String × BVal}
    (h : kv ∈ dictSet d k v) : kv = (k, v) ∨ kv ∈ d := by
  induction d with
  | nil => simpa [dictSet] using h
  | cons p rest ih =>
    obtain ⟨k', v'⟩ := p
    by_cases hk : k' = k
    · subst hk
      have hs : dictSet ((k', v') :: rest) k' v = (k', v) :: rest := by
        simp [dictSet]
      rw [hs] at h
      rcases List.mem_cons.mp h with h' | h'
      · exact Or.inl h'
      · exact Or.inr (List.mem_cons.mpr (Or.inr h'))
    · rw [show dictSet ((k', v') :: rest) k v = (k', v') :: dictSet rest k v by
        simp [dictSet, hk]] at h
      rcases List.mem_cons.mp h with h' | h'
      · exact Or.inr (List.mem_cons.mpr (Or.inl h'))
      · rcases ih h' with h'' | h''
        · exact Or.inl h''
        · exact Or.inr (List.mem_cons.mpr (Or.inr h''))

lemma mem_dictDel_of_nodup {d : Doc} (hnd : (docKeys d).Nodup) {k : String}
    {kv : String × BVal} (h : kv ∈ dictDel d k) : kv ∈ d ∧ kv.1 ≠ k := by
  induction d with
  | nil => simp [dictDel] at h
  | cons p rest ih =>
    obtain ⟨k', v'⟩ := p
    simp only [docKeys, List.map_cons, List.nodup_cons] at hnd
    by_cases hk : k' = k
    · subst hk
      rw [show dictDel ((k', v') :: rest) k' = rest by simp [dictDel]] at h
      refine ⟨List.mem_cons.mpr (Or.inr h), ?_⟩
      intro he
      exact hnd.1 (by simpa [docKeys, ← he] using List.mem_map_of_mem Prod.fst h)
    · rw [show dictDel ((k', v') :: rest) k = (k', v') :: dictDel rest k by
        simp [dictDel, hk]] at h
      rcases List.mem_cons.mp h with h' | h'
      · subst h'
        exact ⟨List.mem_cons.mpr (Or.inl rfl), hk⟩
      · obtain ⟨hm, hne⟩ := ih hnd.2 h'
        exact ⟨List.mem_cons.mpr (Or.inr hm), hne⟩

/-- The shape invariant on a record the service hands to a client:
exactly one `id` key, holding a string, no `_id` key, and no
ObjectId-typed value anywhere. -/
def GoodShape (r : Doc) : Prop :=
  countKey r "id" = 1 ∧ hasKey r "_id" = false ∧
    (∃ s, dictGet r "id" = some (BVal.str s)) ∧
    ∀ kv ∈ r, isOidVal (some kv.2) = false

lemma DocWF_uid {d : Doc} (h : DocWF d) :
    ∃ o, dictGet d "_id" = some (BVal.oid o) := by
  obtain ⟨-, hid, -⟩ := h
  cases hv : dictGet d "_id" with
  | none => rw [hv] at hid; simp [isOidVal] at hid
  | some v =>
    cases v with
    | null => rw [hv] at hid; simp [isOidVal] at hid
    | str s => rw [hv] at hid; simp [isOidVal] at hid
    | oid o => exact ⟨o, rfl⟩

lemma GoodShape_reshape {d : Doc} (h : DocWF d) : GoodShape (reshape d) := by
  obtain ⟨o, ho⟩ := DocWF_uid h
  obtain ⟨hnd, -, hvals⟩ := h
  refine ⟨countKey_reshape_id hnd ho, hasKey_reshape_uid hnd ho,
    ⟨o, by rw [dictGet_reshape_id ho]; rfl⟩, ?_⟩
  intro kv hkv
  rw [reshape_of_uid ho] at hkv
  obtain ⟨hmem, hne⟩ :=
    mem_dictDel_of_nodup (nodup_docKeys_dictSet hnd _ _) hkv
  rcases mem_dictSet hmem with he | he
  · subst he
    simp [isOidVal]
  · exact hvals kv he hne

lemma DocWF_applySet_toDict {d : Doc} (h : DocWF d) (t : TodoUpdate) :
    DocWF (applySet d (TodoUpdate.toDict t)) := by
  obtain ⟨hnd, hid, hvals⟩ := h
  refine ⟨nodup_docKeys_applySet_toDict hnd t, ?_, ?_⟩
  · rw [dictGet_applySet_toDict_other d t (by decide) (by decide) (by decide)]
    exact hid
  · intro kv hkv hne
    rw [applySet_toDict] at hkv
    rcases mem_dictSet hkv with he | he
    · subst he; simp [isOidVal]
    rcases mem_dictSet he with he' | he'
    · subst he'; simp [isOidVal]
    rcases mem_dictSet he' with he'' | he''
    · subst he''; simp [isOidVal]
    · exact hvals kv he'' hne

/-! Handler state and inversion lemmas. -/

lemma update_todo_state (c : Collection) {id o : String} (t : TodoUpdate)
    (hp : parseObjectId id = some o) :
    (update_todo c id t).2 = update_one c o (TodoUpdate.toDict t) := by
  simp only [update_todo, hp]
  cases find_one (update_one c o (TodoUpdate.toDict t)) o with
  | none => rfl
  | some u => by_cases hu : u = [] <;> simp [hu]

lemma delete_todo_state (c : Collection) {id o : String}
    (hp : parseObjectId id = some o) :
    (delete_todo c id).2 = (delete_one c o).1 := by
  simp only [delete_todo, hp]
  by_cases hn : (delete_one c o).2 > 0 <;> simp [hn]

lemma create_todo_state (c : Collection) (t : Todo) (fresh : String) :
    (create_todo c t fresh).2 =
      c ++ [[("_id", BVal.oid fresh), ("title", BVal.str t.title),
        ("description", BVal.str t.description), ("deadline", BVal.str t.deadline)]] := by
  simp only [create_todo, insert_one, hasKey_toDict_id, if_true, dictDel_toDict_id]
  cases find_one
      (c ++ [[("_id", BVal.oid fresh), ("title", BVal.str t.title),
        ("description", BVal.str t.description), ("deadline", BVal.str t.deadline)]])
      fresh with
  | none => rfl
  | some nd => rfl

lemma get_todo_ok_inv {c : Collection} {id : String} {r : Doc}
    (h : get_todo c id = HResult.ok r) :
    ∃ o d, parseObjectId id = some o ∧ find_one c o = some d ∧ r = reshape d := by
  unfold get_todo at h
  split at h
  · exact absurd h (by simp)
  next o heq =>
    split at h
    next todo heq2 =>
      split at h
      · exact absurd h (by simp)
      · refine ⟨o, todo, heq, heq2, ?_⟩
        injection h with h'
        exact h'.symm
    next heq2 => exact absurd h (by simp)

lemma update_todo_ok_inv {c : Collection} {id : String} {t : TodoUpdate} {r : Doc}
    (h : (update_todo c id t).1 = HResult.ok r) :
    ∃ o u, parseObjectId id = some o ∧
      find_one (update_one c o (TodoUpdate.toDict t)) o = some u ∧ r = reshape u := by
  unfold update_todo at h
  split at h
  · exact absurd h (by simp)
  next o heq =>
    simp only at h
    split at h
    next u heq2 =>
      split at h
      · exact absurd h (by simp)
      · refine ⟨o, u, heq, heq2, ?_⟩
        simp only at h
        injection h with h'
        exact h'.symm
    next heq2 => exact absurd h (by simp)

lemma create_todo_ok_inv {c : Collection} {t : Todo} {fresh : String} {r : Doc}
    (h : (create_todo c t fresh).1 = HResult.ok r) :
    ∃ nd, find_one
        (c ++ [[("_id", BVal.oid fresh), ("title", BVal.str t.title),
          ("description", BVal.str t.description), ("deadline", BVal.str t.deadline)]])
        fresh = some nd ∧ r = reshape nd := by
  simp only [create_todo, insert_one, hasKey_toDict_id, if_true, dictDel_toDict_id] at h
  split at h
  next nd heq =>
    refine ⟨nd, heq, ?_⟩
    simp only at h
    injection h with h'
    exact h'.symm
  next heq => exact absurd h (by simp)

/-!
The claims, one theorem each.
-/

/-- C1: For every valid Todo payload, creating a todo via `create_todo`
and then fetching it via `get_todo` with the id string returned by the
create yields a record whose `title`, `description` and `deadline`
fields equal those of the payload, and whose `id` field is a non-empty
string.  The client-generated ObjectId is canonical and fresh for the
collection. -/
theorem create_then_get_roundtrip (c : Collection) (t : Todo) (fresh : String)
    (hcanon : canonicalOid fresh = true)
    (hfresh : ∀ d ∈ c, matchesOid fresh d = false) :
    ∃ r : Doc,
      (create_todo c t fresh).1 = HResult.ok r ∧
      dictGet r "id" = some (BVal.str fresh) ∧
      fresh ≠ "" ∧
      get_todo (create_todo c t fresh).2 fresh = HResult.ok r ∧
      dictGet r "title" = some (BVal.str t.title) ∧
      dictGet r "description" = some (BVal.str t.description) ∧
      dictGet r "deadline" = some (BVal.str t.deadline) := by
  refine ⟨[("title", BVal.str t.title), ("description", BVal.str t.description),
    ("deadline", BVal.str t.deadline), ("id", BVal.str fresh)],
    ?_, rfl, canonicalOid_ne_empty hcanon, ?_, rfl, rfl, rfl⟩
  · rw [create_todo_eq c t fresh hfresh]
  · rw [create_todo_eq c t fresh hfresh]
    simp only [get_todo, parseObjectId_canonical hcanon]
    rw [find_one_inserted c t fresh hfresh]
    rfl

/-- C1 witness: the round trip at a concrete payload and ObjectId on
the empty collection. -/
theorem create_then_get_roundtrip_witness :
    ∃ r : Doc,
      (create_todo [] ⟨some "clientid", "Buy milk", "2%", "2024-01-01"⟩
        "507f1f77bcf86cd799439011").1 = HResult.ok r ∧
      dictGet r "id" = some (BVal.str "507f1f77bcf86cd799439011") ∧
      "507f1f77bcf86cd799439011" ≠ "" ∧
      get_todo (create_todo [] ⟨some "clientid", "Buy milk", "2%", "2024-01-01"⟩
        "507f1f77bcf86cd799439011").2 "507f1f77bcf86cd799439011" = HResult.ok r ∧
      dictGet r "title" = some (BVal.str "Buy milk") ∧
      dictGet r "description" = some (BVal.str "2%") ∧
      dictGet r "deadline" = some (BVal.str "2024-01-01") :=
  create_then_get_roundtrip [] ⟨some "clientid", "Buy milk", "2%", "2024-01-01"⟩
    "507f1f77bcf86cd799439011" (by decide) (by simp)

/-- C2: For every existing todo and every `TodoUpdate` payload, calling
`update_todo` with that todo's id and then `get_todo` on the same id
returns a record whose `title`, `description` and `deadline` are
exactly the payload's values: the `$set` replaces all three content
fields at once, so nothing of the previous values survives in them. -/
theorem update_then_get (c : Collection) (id o : String) (t : TodoUpdate) (d0 : Doc)
    (hp : parseObjectId id = some o)
    (hf : find_one c o = some d0) :
    ∃ r : Doc,
      (update_todo c id t).1 = HResult.ok r ∧
      get_todo (update_todo c id t).2 id = HResult.ok r ∧
      dictGet r "title" = some (BVal.str t.title) ∧
      dictGet r "description" = some (BVal.str t.description) ∧
      dictGet r "deadline" = some (BVal.str t.deadline) := by
  have hpres : ∀ d : Doc,
      matchesOid o (applySet d (TodoUpdate.toDict t)) = matchesOid o d :=
    fun d => matchesOid_applySet_toDict o d t
  have hfind : find_one (update_one c o (TodoUpdate.toDict t)) o =
      some (applySet d0 (TodoUpdate.toDict t)) := by
    rw [find_one_update_one c o _ hpres, hf]
    rfl
  have hne : applySet d0 (TodoUpdate.toDict t) ≠ [] := applySet_toDict_ne_nil d0 t
  have hm : matchesOid o d0 = true := matchesOid_of_find_one hf
  have hd0 : dictGet d0 "_id" = some (BVal.oid o) := by
    simpa [matchesOid] using hm
  have huid : dictGet (applySet d0 (TodoUpdate.toDict t)) "_id" =
      some (BVal.oid o) := by
    rw [dictGet_applySet_toDict_other d0 t (by decide) (by decide) (by decide)]
    exact hd0
  refine ⟨reshape (applySet d0 (TodoUpdate.toDict t)), ?_, ?_, ?_, ?_, ?_⟩
  · simp [update_todo, hp, hfind, hne]
  · rw [update_todo_state c t hp]
    simp [get_todo, hp, hfind, hne]
  · rw [dictGet_reshape_other huid (by decide) (by decide),
      dictGet_applySet_toDict_title]
  · rw [dictGet_reshape_other huid (by decide) (by decide),
      dictGet_applySet_toDict_description]
  · rw [dictGet_reshape_other huid (by decide) (by decide),
      dictGet_applySet_toDict_deadline]

/-- C2 witness: updating the one stored todo and fetching it back at a
concrete collection state. -/
theorem update_then_get_witness :
    ∃ r : Doc,
      (update_todo
        [[("_id", BVal.oid "507f1f77bcf86cd799439011"), ("title", BVal.str "Buy milk"),
          ("description", BVal.str "2%"), ("deadline", BVal.str "2024-01-01")]]
        "507f1f77bcf86cd799439011"
        ⟨"Buy oat milk", "1%", "2024-01-02"⟩).1 = HResult.ok r ∧
      get_todo (update_todo
        [[("_id", BVal.oid "507f1f77bcf86cd799439011"), ("title", BVal.str "Buy milk"),
          ("description", BVal.str "2%"), ("deadline", BVal.str "2024-01-01")]]
        "507f1f77bcf86cd799439011"
        ⟨"Buy oat milk", "1%", "2024-01-02"⟩).2 "507f1f77bcf86cd799439011" =
        HResult.ok r ∧
      dictGet r "title" = some (BVal.str "Buy oat milk") ∧
      dictGet r "description" = some (BVal.str "1%") ∧
      dictGet r "deadline" = some (BVal.str "2024-01-02") :=
  update_then_get
    [[("_id", BVal.oid "507f1f77bcf86cd799439011"), ("title", BVal.str "Buy milk"),
      ("description", BVal.str "2%"), ("deadline", BVal.str "2024-01-01")]]
    "507f1f77bcf86cd799439011" "507f1f77bcf86cd799439011"
    ⟨"Buy oat milk", "1%", "2024-01-02"⟩
    [("_id", BVal.oid "507f1f77bcf86cd799439011"), ("title", BVal.str "Buy milk"),
      ("description", BVal.str "2%"), ("deadline", BVal.str "2024-01-01")]
    (by decide) (by decide)

/-- C3: For every identifier string that parses as a valid ObjectId but
matches no document in the collection, each of `get_todo`,
`update_todo` and `delete_todo` raises the 404 `HTTPException`. -/
theorem valid_absent_id_404 (c : Collection) (id o : String) (t : TodoUpdate)
    (hp : parseObjectId id = some o)
    (hf : find_one c o = none) :
    get_todo c id = HResult.httpError 404 "Todo not found" ∧
    (update_todo c id t).1 = HResult.httpError 404 "Todo not found" ∧
    (delete_todo c id).1 = HResult.httpError 404 "Todo not found" := by
  have hu : update_one c o (TodoUpdate.toDict t) = c := update_one_of_none hf _
  have hd : delete_one c o = (c, 0) := delete_one_of_none hf
  refine ⟨?_, ?_, ?_⟩
  · simp [get_todo, hp, hf]
  · simp [update_todo, hp, hu, hf]
  · simp [delete_todo, hp, hd]

/-- C3 witness: a well-formed ObjectId string absent from a concrete
one-document collection. -/
theorem valid_absent_id_404_witness :
    get_todo [[("_id", BVal.oid "507f1f77bcf86cd799439011")]]
      "ffffffffffffffffffffffff" = HResult.httpError 404 "Todo not found" ∧
    (update_todo [[("_id", BVal.oid "507f1f77bcf86cd799439011")]]
      "ffffffffffffffffffffffff" ⟨"a", "b", "c"⟩).1 =
      HResult.httpError 404 "Todo not found" ∧
    (delete_todo [[("_id", BVal.oid "507f1f77bcf86cd799439011")]]
      "ffffffffffffffffffffffff").1 = HResult.httpError 404 "Todo not found" :=
  valid_absent_id_404 [[("_id", BVal.oid "507f1f77bcf86cd799439011")]]
    "ffffffffffffffffffffffff" "ffffffffffffffffffffffff" ⟨"a", "b", "c"⟩
    (by decide) (by decide)

/-- C4: For every valid identifier string, `delete_todo` removes the
(first) matching document and returns exactly the
`"Todo deleted successfully"` message if and only if a document was
removed; if none matched it raises 404 and the collection is
untouched. -/
theorem delete_removes_iff (c : Collection) (id o : String)
    (hp : parseObjectId id = some o) :
    (∀ d : Doc, find_one c o = some d →
      ∃ pre post, c = pre ++ d :: post ∧
        (∀ e ∈ pre, matchesOid o e = false) ∧
        delete_todo c id =
          (HResult.ok [("message", BVal.str "Todo deleted successfully")],
           pre ++ post)) ∧
    (find_one c o = none →
      delete_todo c id = (HResult.httpError 404 "Todo not found", c)) := by
  constructor
  · intro d hd
    obtain ⟨pre, post, hc, hpre, hdel⟩ := delete_one_of_some hd
    exact ⟨pre, post, hc, hpre, by simp [delete_todo, hp, hdel]⟩
  · intro hn
    have hd := delete_one_of_none hn
    simp [delete_todo, hp, hd]

/-- C4 witness: deleting the only document of a concrete collection,
and deleting from the then-empty collection. -/
theorem delete_removes_iff_witness :
    (∀ d : Doc,
      find_one [[("_id", BVal.oid "507f1f77bcf86cd799439011"),
        ("title", BVal.str "Buy milk"), ("description", BVal.str "2%"),
        ("deadline", BVal.str "2024-01-01")]] "507f1f77bcf86cd799439011" = some d →
      ∃ pre post,
        [[("_id", BVal.oid "507f1f77bcf86cd799439011"),
          ("title", BVal.str "Buy milk"), ("description", BVal.str "2%"),
          ("deadline", BVal.str "2024-01-01")]] = pre ++ d :: post ∧
        (∀ e ∈ pre, matchesOid "507f1f77bcf86cd799439011" e = false) ∧
        delete_todo [[("_id", BVal.oid "507f1f77bcf86cd799439011"),
          ("title", BVal.str "Buy milk"), ("description", BVal.str "2%"),
          ("deadline", BVal.str "2024-01-01")]] "507f1f77bcf86cd799439011" =
          (HResult.ok [("message", BVal.str "Todo deleted successfully")],
           pre ++ post)) ∧
    (find_one [[("_id", BVal.oid "507f1f77bcf86cd799439011"),
        ("title", BVal.str "Buy milk"), ("description", BVal.str "2%"),
        ("deadline", BVal.str "2024-01-01")]] "507f1f77bcf86cd799439011" = none →
      delete_todo [[("_id", BVal.oid "507f1f77bcf86cd799439011"),
        ("title", BVal.str "Buy milk"), ("description", BVal.str "2%"),
        ("deadline", BVal.str "2024-01-01")]] "507f1f77bcf86cd799439011" =
        (HResult.httpError 404 "Todo not found",
         [[("_id", BVal.oid "507f1f77bcf86cd799439011"),
           ("title", BVal.str "Buy milk"), ("description", BVal.str "2%"),
           ("deadline", BVal.str "2024-01-01")]])) :=
  delete_removes_iff
    [[("_id", BVal.oid "507f1f77bcf86cd799439011"), ("title", BVal.str "Buy milk"),
      ("description", BVal.str "2%"), ("deadline", BVal.str "2024-01-01")]]
    "507f1f77bcf86cd799439011" "507f1f77bcf86cd799439011" (by decide)

/-- C5: `create_todo` strips any client-supplied `id` before insertion:
the stored document is exactly `_id` plus the three content fields (no
`id` key), it is appended to the collection, and the returned record
carries the freshly assigned identifier as its `id` — never the
client-supplied value. -/
theorem create_strips_client_id (c : Collection) (t : Todo) (fresh : String)
    (hfresh : ∀ d ∈ c, matchesOid fresh d = false) :
    (create_todo c t fresh).2 =
      c ++ [[("_id", BVal.oid fresh), ("title", BVal.str t.title),
        ("description", BVal.str t.description), ("deadline", BVal.str t.deadline)]] ∧
    hasKey [("_id", BVal.oid fresh), ("title", BVal.str t.title),
      ("description", BVal.str t.description), ("deadline", BVal.str t.deadline)]
      "id" = false ∧
    (create_todo c t fresh).1 =
      HResult.ok [("title", BVal.str t.title), ("description", BVal.str t.description),
        ("deadline", BVal.str t.deadline), ("id", BVal.str fresh)] ∧
    ∀ s : String, t.id = some s → s ≠ fresh →
      dictGet [("title", BVal.str t.title), ("description", BVal.str t.description),
        ("deadline", BVal.str t.deadline), ("id", BVal.str fresh)] "id" ≠
        some (BVal.str s) := by
  rw [create_todo_eq c t fresh hfresh]
  refine ⟨rfl, rfl, rfl, ?_⟩
  intro s hs hne hcontra
  have : fresh = s := by
    have h1 : BVal.str fresh = BVal.str s := by
      have h2 : dictGet [("title", BVal.str t.title),
          ("description", BVal.str t.description),
          ("deadline", BVal.str t.deadline), ("id", BVal.str fresh)] "id" =
          some (BVal.str fresh) := rfl
      rw [h2] at hcontra
      exact Option.some.inj hcontra
    injection h1
  exact hne this.symm

/-- C5 witness: a payload carrying a client-supplied id distinct from
the generated one. -/
theorem create_strips_client_id_witness :
    (create_todo [] ⟨some "aaaaaaaaaaaaaaaaaaaaaaaa", "Buy milk", "2%", "2024-01-01"⟩
      "507f1f77bcf86cd799439011").2 =
      [] ++ [[("_id", BVal.oid "507f1f77bcf86cd799439011"), ("title", BVal.str "Buy milk"),
        ("description", BVal.str "2%"), ("deadline", BVal.str "2024-01-01")]] ∧
    hasKey [("_id", BVal.oid "507f1f77bcf86cd799439011"), ("title", BVal.str "Buy milk"),
      ("description", BVal.str "2%"), ("deadline", BVal.str "2024-01-01")] "id" = false ∧
    (create_todo [] ⟨some "aaaaaaaaaaaaaaaaaaaaaaaa", "Buy milk", "2%", "2024-01-01"⟩
      "507f1f77bcf86cd799439011").1 =
      HResult.ok [("title", BVal.str "Buy milk"), ("description", BVal.str "2%"),
        ("deadline", BVal.str "2024-01-01"), ("id", BVal.str "507f1f77bcf86cd799439011")] ∧
    ∀ s : String,
      (⟨some "aaaaaaaaaaaaaaaaaaaaaaaa", "Buy milk", "2%", "2024-01-01"⟩ : Todo).id =
        some s → s ≠ "507f1f77bcf86cd799439011" →
      dictGet [("title", BVal.str "Buy milk"), ("description", BVal.str "2%"),
        ("deadline", BVal.str "2024-01-01"), ("id", BVal.str "507f1f77bcf86cd799439011")]
        "id" ≠ some (BVal.str s) :=
  create_strips_client_id []
    ⟨some "aaaaaaaaaaaaaaaaaaaaaaaa", "Buy milk", "2%", "2024-01-01"⟩
    "507f1f77bcf86cd799439011" (by simp)

/-- C8: For every path identifier string that `bson.ObjectId` rejects,
`get_todo`, `update_todo` and `delete_todo` let the `InvalidId`
exception propagate: no 404 or 422 is produced by the handler, and the
collection is untouched. -/
theorem malformed_id_propagates (c : Collection) (id : String) (t : TodoUpdate)
    (hp : parseObjectId id = none) :
    get_todo c id = HResult.fault "bson.errors.InvalidId" ∧
    update_todo c id t = (HResult.fault "bson.errors.InvalidId", c) ∧
    delete_todo c id = (HResult.fault "bson.errors.InvalidId", c) := by
  refine ⟨?_, ?_, ?_⟩ <;> simp [get_todo, update_todo, delete_todo, hp]

/-- C8 witness: the string `"xyz"` is not a valid ObjectId. -/
theorem malformed_id_propagates_witness :
    get_todo [] "xyz" = HResult.fault "bson.errors.InvalidId" ∧
    update_todo [] "xyz" ⟨"a", "b", "c"⟩ =
      (HResult.fault "bson.errors.InvalidId", []) ∧
    delete_todo [] "xyz" = (HResult.fault "bson.errors.InvalidId", []) :=
  malformed_id_propagates [] "xyz" ⟨"a", "b", "c"⟩ (by decide)

/-- C9: For every valid identifier matching no document, `update_todo`
issues the `$set` unconditionally but it is a no-op (the collection is
exactly unchanged), absence is detected only by the re-fetch, and the
handler raises 404. -/
theorem update_absent_noop_404 (c : Collection) (id o : String) (t : TodoUpdate)
    (hp : parseObjectId id = some o)
    (hf : find_one c o = none) :
    update_one c o (TodoUpdate.toDict t) = c ∧
    update_todo c id t = (HResult.httpError 404 "Todo not found", c) := by
  have hu : update_one c o (TodoUpdate.toDict t) = c := update_one_of_none hf _
  exact ⟨hu, by simp [update_todo, hp, hu, hf]⟩

/-- C9 witness: an unconditional `$set` against an absent id on a
concrete one-document collection. -/
theorem update_absent_noop_404_witness :
    update_one [[("_id", BVal.oid "507f1f77bcf86cd799439011")]]
      "ffffffffffffffffffffffff"
      (TodoUpdate.toDict ⟨"a", "b", "c"⟩) =
      [[("_id", BVal.oid "507f1f77bcf86cd799439011")]] ∧
    update_todo [[("_id", BVal.oid "507f1f77bcf86cd799439011")]]
      "ffffffffffffffffffffffff" ⟨"a", "b", "c"⟩ =
      (HResult.httpError 404 "Todo not found",
       [[("_id", BVal.oid "507f1f77bcf86cd799439011")]]) :=
  update_absent_noop_404 [[("_id", BVal.oid "507f1f77bcf86cd799439011")]]
    "ffffffffffffffffffffffff" "ffffffffffffffffffffffff" ⟨"a", "b", "c"⟩
    (by decide) (by decide)

lemma DocWF_inserted (t : Todo) (fresh : String) :
    DocWF [("_id", BVal.oid fresh), ("title", BVal.str t.title),
      ("description", BVal.str t.description), ("deadline", BVal.str t.deadline)] := by
  refine ⟨by simp only [docKeys, List.map_cons, List.map_nil]; decide, rfl, ?_⟩
  intro kv hkv hne
  simp only [List.mem_cons, List.not_mem_nil, or_false] at hkv
  rcases hkv with h | h | h | h
  · rw [h] at hne
    simp at hne
  · rw [h]; rfl
  · rw [h]; rfl
  · rw [h]; rfl

lemma getElem?_update_one (cs : Collection) (o : String) (s : Doc) :
    ∀ i : Nat, ∀ d : Doc, cs[i]? = some d → matchesOid o d = false →
      (update_one cs o s)[i]? = some d := by
  induction cs with
  | nil => intro i d hi; simp at hi
  | cons e rest ih =>
    intro i d hi hne
    cases i with
    | zero =>
      simp only [List.getElem?_cons_zero, Option.some.injEq] at hi
      subst hi
      by_cases he : matchesOid o e
      · rw [he] at hne
        simp at hne
      · simp [update_one, he]
    | succ n =>
      simp only [List.getElem?_cons_succ] at hi
      by_cases he : matchesOid o e
      · simp only [update_one, if_pos he, List.getElem?_cons_succ]
        exact hi
      · simp only [update_one, if_neg he, List.getElem?_cons_succ]
        exact ih n d hi hne

/-- C6: Every record returned to a client by `get_todos`, `get_todo`,
`create_todo` or `update_todo` contains exactly one `id` key, holding a
string, no `_id` key and no ObjectId-typed value under any key
(`GoodShape`); moreover that `id` value is the string form of the
storage identifier: the record is the reshape of the document fetched
from storage, whose `_id` holds `BVal.oid o`, and the record's `id`
holds exactly `BVal.str o`. -/
theorem returned_records_shape (c : Collection) (hwf : WF c) :
    (∀ r ∈ get_todos c, GoodShape r ∧
      ∃ d ∈ c, ∃ o, dictGet d "_id" = some (BVal.oid o) ∧
        r = reshape d ∧ dictGet r "id" = some (BVal.str o)) ∧
    (∀ id r, get_todo c id = HResult.ok r → GoodShape r ∧
      ∃ o d, parseObjectId id = some o ∧ find_one c o = some d ∧
        dictGet d "_id" = some (BVal.oid o) ∧
        r = reshape d ∧ dictGet r "id" = some (BVal.str o)) ∧
    (∀ t fresh r, (create_todo c t fresh).1 = HResult.ok r → GoodShape r ∧
      ∃ nd, find_one (create_todo c t fresh).2 fresh = some nd ∧
        dictGet nd "_id" = some (BVal.oid fresh) ∧
        r = reshape nd ∧ dictGet r "id" = some (BVal.str fresh)) ∧
    (∀ id t r, (update_todo c id t).1 = HResult.ok r → GoodShape r ∧
      ∃ o u, parseObjectId id = some o ∧
        find_one (update_todo c id t).2 o = some u ∧
        dictGet u "_id" = some (BVal.oid o) ∧
        r = reshape u ∧ dictGet r "id" = some (BVal.str o)) := by
  refine ⟨?_, ?_, ?_, ?_⟩
  · intro r hr
    simp only [get_todos, find, List.mem_map] at hr
    obtain ⟨d, hd, he⟩ := hr
    obtain ⟨o, ho⟩ := DocWF_uid (hwf d hd)
    refine ⟨?_, d, hd, o, ho, he.symm, ?_⟩
    · rw [← he]
      exact GoodShape_reshape (hwf d hd)
    · rw [← he, dictGet_reshape_id ho]
      rfl
  · intro id r h
    obtain ⟨o, d, hp, hf, he⟩ := get_todo_ok_inv h
    have hm : dictGet d "_id" = some (BVal.oid o) := by
      simpa [matchesOid] using matchesOid_of_find_one hf
    refine ⟨?_, o, d, hp, hf, hm, he, ?_⟩
    · rw [he]
      exact GoodShape_reshape (hwf d (mem_of_find_one hf))
    · rw [he, dictGet_reshape_id hm]
      rfl
  · intro t fresh r h
    obtain ⟨nd, hf, he⟩ := create_todo_ok_inv h
    have hm : dictGet nd "_id" = some (BVal.oid fresh) := by
      simpa [matchesOid] using matchesOid_of_find_one hf
    have hshape : GoodShape r := by
      rw [he]
      have hmem := mem_of_find_one hf
      rcases List.mem_append.mp hmem with hmc | hmc
      · exact GoodShape_reshape (hwf nd hmc)
      · simp only [List.mem_singleton] at hmc
        rw [hmc]
        exact GoodShape_reshape (DocWF_inserted t fresh)
    refine ⟨hshape, nd, ?_, hm, he, ?_⟩
    · rw [create_todo_state c t fresh]
      exact hf
    · rw [he, dictGet_reshape_id hm]
      rfl
  · intro id t r h
    obtain ⟨o, u, hp, hf, he⟩ := update_todo_ok_inv h
    have hm : dictGet u "_id" = some (BVal.oid o) := by
      simpa [matchesOid] using matchesOid_of_find_one hf
    have hshape : GoodShape r := by
      rw [he]
      have hmem := mem_of_find_one hf
      rcases mem_update_one hmem with hmc | ⟨d0, hd0, he2⟩
      · exact GoodShape_reshape (hwf u hmc)
      · rw [he2]
        exact GoodShape_reshape (DocWF_applySet_toDict (hwf d0 hd0) t)
    refine ⟨hshape, o, u, hp, ?_, hm, he, ?_⟩
    · rw [update_todo_state c t hp]
      exact hf
    · rw [he, dictGet_reshape_id hm]
      rfl

/-- C6 witness: the shape-and-identifier invariant at a concrete
two-document collection state. -/
theorem returned_records_shape_witness :
    (∀ r ∈ get_todos
      [[("_id", BVal.oid "507f1f77bcf86cd799439011"), ("title", BVal.str "Buy milk"),
        ("description", BVal.str "2%"), ("deadline", BVal.str "2024-01-01")],
       [("_id", BVal.oid "ffffffffffffffffffffffff"), ("title", BVal.str "Rest"),
        ("description", BVal.str "zzz"), ("deadline", BVal.str "2024-01-02")]],
      GoodShape r ∧
      ∃ d ∈ ([[("_id", BVal.oid "507f1f77bcf86cd799439011"), ("title", BVal.str "Buy milk"),
        ("description", BVal.str "2%"), ("deadline", BVal.str "2024-01-01")],
       [("_id", BVal.oid "ffffffffffffffffffffffff"), ("title", BVal.str "Rest"),
        ("description", BVal.str "zzz"),
        ("deadline", BVal.str "2024-01-02")]] : Collection),
        ∃ o, dictGet d "_id" = some (BVal.oid o) ∧
          r = reshape d ∧ dictGet r "id" = some (BVal.str o)) ∧
    (∀ id r, get_todo
      [[("_id", BVal.oid "507f1f77bcf86cd799439011"), ("title", BVal.str "Buy milk"),
        ("description", BVal.str "2%"), ("deadline", BVal.str "2024-01-01")],
       [("_id", BVal.oid "ffffffffffffffffffffffff"), ("title", BVal.str "Rest"),
        ("description", BVal.str "zzz"), ("deadline", BVal.str "2024-01-02")]]
      id = HResult.ok r → GoodShape r ∧
      ∃ o d, parseObjectId id = some o ∧
        find_one
          [[("_id", BVal.oid "507f1f77bcf86cd799439011"), ("title", BVal.str "Buy milk"),
            ("description", BVal.str "2%"), ("deadline", BVal.str "2024-01-01")],
           [("_id", BVal.oid "ffffffffffffffffffffffff"), ("title", BVal.str "Rest"),
            ("description", BVal.str "zzz"), ("deadline", BVal.str "2024-01-02")]]
          o = some d ∧
        dictGet d "_id" = some (BVal.oid o) ∧
        r = reshape d ∧ dictGet r "id" = some (BVal.str o)) ∧
    (∀ t fresh r, (create_todo
      [[("_id", BVal.oid "507f1f77bcf86cd799439011"), ("title", BVal.str "Buy milk"),
        ("description", BVal.str "2%"), ("deadline", BVal.str "2024-01-01")],
       [("_id", BVal.oid "ffffffffffffffffffffffff"), ("title", BVal.str "Rest"),
        ("description", BVal.str "zzz"), ("deadline", BVal.str "2024-01-02")]]
      t fresh).1 = HResult.ok r → GoodShape r ∧
      ∃ nd, find_one (create_todo
        [[("_id", BVal.oid "507f1f77bcf86cd799439011"), ("title", BVal.str "Buy milk"),
          ("description", BVal.str "2%"), ("deadline", BVal.str "2024-01-01")],
         [("_id", BVal.oid "ffffffffffffffffffffffff"), ("title", BVal.str "Rest"),
          ("description", BVal.str "zzz"), ("deadline", BVal.str "2024-01-02")]]
        t fresh).2 fresh = some nd ∧
        dictGet nd "_id" = some (BVal.oid fresh) ∧
        r = reshape nd ∧ dictGet r "id" = some (BVal.str fresh)) ∧
    (∀ id t r, (update_todo
      [[("_id", BVal.oid "507f1f77bcf86cd799439011"), ("title", BVal.str "Buy milk"),
        ("description", BVal.str "2%"), ("deadline", BVal.str "2024-01-01")],
       [("_id", BVal.oid "ffffffffffffffffffffffff"), ("title", BVal.str "Rest"),
        ("description", BVal.str "zzz"), ("deadline", BVal.str "2024-01-02")]]
      id t).1 = HResult.ok r → GoodShape r ∧
      ∃ o u, parseObjectId id = some o ∧
        find_one (update_todo
          [[("_id", BVal.oid "507f1f77bcf86cd799439011"), ("title", BVal.str "Buy milk"),
            ("description", BVal.str "2%"), ("deadline", BVal.str "2024-01-01")],
           [("_id", BVal.oid "ffffffffffffffffffffffff"), ("title", BVal.str "Rest"),
            ("description", BVal.str "zzz"), ("deadline", BVal.str "2024-01-02")]]
          id t).2 o = some u ∧
        dictGet u "_id" = some (BVal.oid o) ∧
        r = reshape u ∧ dictGet r "id" = some (BVal.str o)) :=
  returned_records_shape
    [[("_id", BVal.oid "507f1f77bcf86cd799439011"), ("title", BVal.str "Buy milk"),
      ("description", BVal.str "2%"), ("deadline", BVal.str "2024-01-01")],
     [("_id", BVal.oid "ffffffffffffffffffffffff"), ("title", BVal.str "Rest"),
      ("description", BVal.str "zzz"), ("deadline", BVal.str "2024-01-02")]]
    (by decide)

lemma mem_of_getElem_opt {cs : Collection} :
    ∀ {i : Nat} {d : Doc}, cs[i]? = some d → d ∈ cs := by
  induction cs with
  | nil => intro i d hi; simp at hi
  | cons e rest ih =>
    intro i d hi
    cases i with
    | zero =>
      simp only [List.getElem?_cons_zero, Option.some.injEq] at hi
      exact hi ▸ List.mem_cons_self e rest
    | succ n =>
      simp only [List.getElem?_cons_succ] at hi
      exact List.mem_cons_of_mem e (ih hi)

lemma getElem?_append_of_some {cs l2 : Collection} :
    ∀ i : Nat, ∀ d : Doc, cs[i]? = some d → (cs ++ l2)[i]? = some d := by
  induction cs with
  | nil => intro i d hi; simp at hi
  | cons e rest ih =>
    intro i d hi
    cases i with
    | zero => simpa using hi
    | succ n =>
      simp only [List.cons_append, List.getElem?_cons_succ] at hi ⊢
      exact ih n d hi

/-- C7: `get_todos` returns one record per stored document, in the
store's order, each being the document with its `_id` rewritten into a
public string `id` and every other field untouched.  It is read-only by
construction: its type consumes the collection state and returns only
the response list. -/
theorem get_todos_listing (cs : Collection) (hwf : WF cs) :
    (get_todos cs).length = cs.length ∧
    ∀ i : Nat, ∀ d : Doc, cs[i]? = some d →
      ∃ o, dictGet d "_id" = some (BVal.oid o) ∧
        (get_todos cs)[i]? = some (reshape d) ∧
        dictGet (reshape d) "id" = some (BVal.str o) ∧
        ∀ k, k ≠ "id" → k ≠ "_id" → dictGet (reshape d) k = dictGet d k := by
  constructor
  · simp [get_todos, find]
  · intro i d hi
    have hd : d ∈ cs := mem_of_getElem_opt hi
    obtain ⟨o, ho⟩ := DocWF_uid (hwf d hd)
    refine ⟨o, ho, ?_, ?_, ?_⟩
    · simp [get_todos, find, List.getElem?_map, hi]
    · rw [dictGet_reshape_id ho]
      rfl
    · intro k h1 h2
      exact dictGet_reshape_other ho h1 h2

/-- C7 witness: the listing property at a concrete two-document
collection. -/
theorem get_todos_listing_witness :
    (get_todos
      [[("_id", BVal.oid "507f1f77bcf86cd799439011"), ("title", BVal.str "Buy milk"),
        ("description", BVal.str "2%"), ("deadline", BVal.str "2024-01-01")],
       [("_id", BVal.oid "ffffffffffffffffffffffff"), ("title", BVal.str "Rest"),
        ("description", BVal.str "zzz"), ("deadline", BVal.str "2024-01-02")]]).length =
      ([[("_id", BVal.oid "507f1f77bcf86cd799439011"), ("title", BVal.str "Buy milk"),
        ("description", BVal.str "2%"), ("deadline", BVal.str "2024-01-01")],
       [("_id", BVal.oid "ffffffffffffffffffffffff"), ("title", BVal.str "Rest"),
        ("description", BVal.str "zzz"),
        ("deadline", BVal.str "2024-01-02")]] : Collection).length ∧
    ∀ i : Nat, ∀ d : Doc,
      ([[("_id", BVal.oid "507f1f77bcf86cd799439011"), ("title", BVal.str "Buy milk"),
        ("description", BVal.str "2%"), ("deadline", BVal.str "2024-01-01")],
       [("_id", BVal.oid "ffffffffffffffffffffffff"), ("title", BVal.str "Rest"),
        ("description", BVal.str "zzz"),
        ("deadline", BVal.str "2024-01-02")]] : Collection)[i]? = some d →
      ∃ o, dictGet d "_id" = some (BVal.oid o) ∧
        (get_todos
          [[("_id", BVal.oid "507f1f77bcf86cd799439011"), ("title", BVal.str "Buy milk"),
            ("description", BVal.str "2%"), ("deadline", BVal.str "2024-01-01")],
           [("_id", BVal.oid "ffffffffffffffffffffffff"), ("title", BVal.str "Rest"),
            ("description", BVal.str "zzz"),
            ("deadline", BVal.str "2024-01-02")]])[i]? = some (reshape d) ∧
        dictGet (reshape d) "id" = some (BVal.str o) ∧
        ∀ k, k ≠ "id" → k ≠ "_id" → dictGet (reshape d) k = dictGet d k :=
  get_todos_listing
    [[("_id", BVal.oid "507f1f77bcf86cd799439011"), ("title", BVal.str "Buy milk"),
      ("description", BVal.str "2%"), ("deadline", BVal.str "2024-01-01")],
     [("_id", BVal.oid "ffffffffffffffffffffffff"), ("title", BVal.str "Rest"),
      ("description", BVal.str "zzz"), ("deadline", BVal.str "2024-01-02")]]
    (by decide)

/-- C10: The single-document write operations touch nothing else:
every stored document whose `_id` differs from the addressed ObjectId
keeps its position and content across `update_todo`, survives
`delete_todo`, and every stored document keeps its position across
`create_todo`.  `get_todo` and `get_todos` are read-only by
construction (their types return no collection state). -/
theorem single_target_frame (cs : Collection) (id o : String) (t : TodoUpdate)
    (t0 : Todo) (fresh : String)
    (hp : parseObjectId id = some o) :
    (∀ i : Nat, ∀ d : Doc, cs[i]? = some d → matchesOid o d = false →
      (update_todo cs id t).2[i]? = some d) ∧
    (∀ d ∈ cs, matchesOid o d = false → d ∈ (delete_todo cs id).2) ∧
    (∀ i : Nat, ∀ d : Doc, cs[i]? = some d →
      (create_todo cs t0 fresh).2[i]? = some d) := by
  refine ⟨?_, ?_, ?_⟩
  · intro i d hi hne
    rw [update_todo_state cs t hp]
    exact getElem?_update_one cs o (TodoUpdate.toDict t) i d hi hne
  · intro d hd hne
    rw [delete_todo_state cs hp]
    exact mem_delete_one_of_not_match hd hne
  · intro i d hi
    rw [create_todo_state cs t0 fresh]
    exact getElem?_append_of_some i d hi

/-- C10 witness: the frame conditions at a concrete one-document
collection addressed by a different ObjectId. -/
theorem single_target_frame_witness :
    (∀ i : Nat, ∀ d : Doc,
      ([[("_id", BVal.oid "507f1f77bcf86cd799439011"),
        ("title", BVal.str "Buy milk")]] : Collection)[i]? = some d →
      matchesOid "ffffffffffffffffffffffff" d = false →
      (update_todo [[("_id", BVal.oid "507f1f77bcf86cd799439011"),
        ("title", BVal.str "Buy milk")]]
        "ffffffffffffffffffffffff" ⟨"a", "b", "c"⟩).2[i]? = some d) ∧
    (∀ d ∈ ([[("_id", BVal.oid "507f1f77bcf86cd799439011"),
        ("title", BVal.str "Buy milk")]] : Collection),
      matchesOid "ffffffffffffffffffffffff" d = false →
      d ∈ (delete_todo [[("_id", BVal.oid "507f1f77bcf86cd799439011"),
        ("title", BVal.str "Buy milk")]] "ffffffffffffffffffffffff").2) ∧
    (∀ i : Nat, ∀ d : Doc,
      ([[("_id", BVal.oid "507f1f77bcf86cd799439011"),
        ("title", BVal.str "Buy milk")]] : Collection)[i]? = some d →
      (create_todo [[("_id", BVal.oid "507f1f77bcf86cd799439011"),
        ("title", BVal.str "Buy milk")]]
        ⟨none, "Rest", "zzz", "2024-01-02"⟩
        "aaaaaaaaaaaaaaaaaaaaaaaa").2[i]? = some d) :=
  single_target_frame
    [[("_id", BVal.oid "507f1f77bcf86cd799439011"), ("title", BVal.str "Buy milk")]]
    "ffffffffffffffffffffffff" "ffffffffffffffffffffffff" ⟨"a", "b", "c"⟩
    ⟨none, "Rest", "zzz", "2024-01-02"⟩ "aaaaaaaaaaaaaaaaaaaaaaaa" (by decide)
